import Mathlib

/-!
Verification of the match-event analytics engine of `valorant_bot.py`.

The Python source operates on JSON dictionaries.  We embed the fields the
analytics functions actually read as Lean structures; `dict.get(key, default)`
on an optional field becomes an `Option` field plus an explicit default.
Python floats are modelled as exact rationals (`ℚ`); `round(x, n)` is modelled
by `round1`/`round2` below.  All definitions are computable and follow the
source line by line (line numbers refer to `src/valorant_bot.py`); the only
definitions taken from the specification instead of the source are explicitly
marked `Modelled from the spec`.
-/

namespace ValoBot

/-- Model of Python `str.lower()`: lower-case each character (the team and
puuid strings in the data are ASCII, where `Char.toLower` agrees with
Python's per-code-point lowering). -/
def lowerStr (s : String) : String := ⟨s.data.map Char.toLower⟩

/-- Model of Python `round(x, 1)` on exact rationals: round to the nearest
tenth.  Python rounds binary floats with ties to even; no claim in this
development depends on the tie behaviour, and every claim compares two
applications of the same rounding function, so round-half-up is used. -/
def round1 (q : ℚ) : ℚ := (⌊10 * q + 1 / 2⌋ : ℚ) / 10

/-- Model of Python `round(x, 2)` on exact rationals (see `round1`). -/
def round2 (q : ℚ) : ℚ := (⌊100 * q + 1 / 2⌋ : ℚ) / 100

/-- Lexicographic comparison of characters lists by code point, the order
Python uses to compare strings. -/
def charListLe : List Char → List Char → Bool
  | [], _ => true
  | _ :: _, [] => false
  | c :: cs, d :: ds =>
    if c.val < d.val then true
    else if d.val < c.val then false
    else charListLe cs ds

/-- Python string comparison `a <= b` (code-point lexicographic). -/
def strLeB (a b : String) : Bool := charListLe a.data b.data

/-- Insert `x` into `l`, after every element `y` with `le y x`.  Used to build
a stable sort: an element inserted later (further right in the input) lands
after existing elements with an equal key. -/
def insertLe (le : α → α → Bool) (x : α) : List α → List α
  | [] => [x]
  | y :: ys => if le y x then y :: insertLe le x ys else x :: y :: ys

/-- Stable insertion sort, modelling Python's stable `list.sort` /
`sorted`: for a total preorder the stable sorted permutation is unique, so
this agrees with Python's timsort. -/
def stableSort (le : α → α → Bool) (l : List α) : List α :=
  l.foldl (fun acc x => insertLe le x acc) []

/-! ## Data model

Fields read by the analytics code, with the Python access they model. -/

/-- One kill event (an entry of `match_data['kills']`).  `assistants` is the
list of `assistant_puuid` values of `kill_event.get('assistants', [])`. -/
structure Kill where
  round : ℤ                -- kill_event.get('round', 0)
  kill_time_in_round : ℤ   -- kill_event.get('kill_time_in_round', 0)
  killer_puuid : String    -- kill_event.get('killer_puuid')
  victim_puuid : String    -- kill_event.get('victim_puuid')
  killer_team : String     -- kill_event.get('killer_team', '')
  assistants : List String
deriving DecidableEq

/-- Per-round economy block of one player
(`player_stat.get('economy', {})`); `weapon`/`armor` are the `name`
sub-fields, `none` when the key is absent (defaults `'Unknown'` / `'None'`
are applied at the use site, as in the source). -/
structure Economy where
  loadout_value : ℕ        -- economy.get('loadout_value', 0)
  weapon : Option String   -- economy.get('weapon', {}).get('name', 'Unknown')
  armor : Option String    -- economy.get('armor', {}).get('name', 'None')
deriving DecidableEq

/-- One entry of `round_info['player_stats']`.  The four survival-related
Booleans hold the truthiness of the corresponding dict lookups; in
particular `died_in_round` is the truthiness of
`player_round_stats.get('died_in_round', True)`, so an absent key is
modelled by `true`. -/
structure PlayerRoundStat where
  player_puuid : String    -- player_stat.get('player_puuid')
  kills : ℕ                -- player_round_stats.get('kills', 0)
  assists : ℕ              -- player_round_stats.get('assists', 0)
  alive : Bool             -- player_round_stats.get('alive', False)
  was_alive : Bool         -- player_round_stats.get('was_alive', False)
  survived : Bool          -- player_round_stats.get('survived', False)
  died_in_round : Bool     -- player_round_stats.get('died_in_round', True)
  team : String            -- player_stat.get('team', '')
  economy : Economy
deriving DecidableEq

/-- One entry of `match_data['rounds']`.  The three optional round-number
fields model key presence/absence for `round_num`, `round` and
`round_number`. -/
structure RoundInfo where
  round_num : Option ℤ
  round : Option ℤ
  round_number : Option ℤ
  winning_team : String    -- round_info.get('winning_team', '')
  player_stats : List PlayerRoundStat
deriving DecidableEq

/-- The parts of a raw match record the analytics engine reads. -/
structure MatchData where
  rounds : List RoundInfo
  kills : List Kill
deriving DecidableEq

/-- Truthiness of an optional integer field, as Python's `or` chain sees it:
an absent key and a stored `0` are both falsy. -/
def optTruthy (o : Option ℤ) : Bool :=
  match o with
  | some v => v != 0
  | none => false

/-! ## Event indexing -/

/-- The list stored under key `n` of the `kills_by_round` dict built by
grouping `match_kills` by `kill_event.get('round', 0)` (lines 99-104,
284-289, 488-493): the kills with round number `n`, in input order.  The
key `n` is present in the dict iff this list is nonempty. -/
def killsForRound (kills : List Kill) (n : ℤ) : List Kill :=
  kills.filter (fun k => k.round == n)

/-- The fallback lookup used by `calculate_kast` (lines 137-139, 155-157,
167-169): `kills_by_round.get(round_num, []) or
kills_by_round.get(round_num + 1, []) or kills_by_round.get(round_num - 1, [])`.
Python's `or` moves on from an empty list, so this is
nonemptiness-staged. -/
def lookupRoundKills (kills : List Kill) (n : ℤ) : List Kill :=
  let a := killsForRound kills n
  if a.isEmpty then
    let b := killsForRound kills (n + 1)
    if b.isEmpty then killsForRound kills (n - 1) else b
  else a

/-- Modelled from the spec: the `lookupRoundKills` contract of spec section
4.1 — return the kills for `roundNumber` if present, otherwise fall back to
`roundNumber + 1`, then `roundNumber - 1`, returning an empty list only if
none of the three keys exist. -/
def spec_lookupRoundKills (kills : List Kill) (n : ℤ) : List Kill :=
  if killsForRound kills n ≠ [] then killsForRound kills n
  else if killsForRound kills (n + 1) ≠ [] then killsForRound kills (n + 1)
  else killsForRound kills (n - 1)

/-- The effective round-kills lookup of `analyze_first_blood_win_rate`
(lines 296-302): the round is skipped when `round_num not in
kills_by_round`, otherwise `kills_by_round[round_num]` is used directly —
the round's own key only, no fallback. -/
def fbRoundKills (kills : List Kill) (n : ℤ) : List Kill :=
  killsForRound kills n

/-! ## KAST evaluator (`calculate_kast`, lines 82-224) -/

/-- Round-number resolution of lines 110-112:
`round_info.get('round_num') or round_info.get('round') or
round_info.get('round_number', rounds_checked)`.  The first two links of
the `or` chain skip falsy values (absent key or `0`); the last is a plain
presence-based `get` with the running counter as default. -/
def kastRoundNum (r : RoundInfo) (rounds_checked : ℕ) : ℤ :=
  if optTruthy r.round_num then r.round_num.getD 0
  else if optTruthy r.round then r.round.getD 0
  else r.round_number.getD (rounds_checked : ℤ)

/-- Sorting of a round's kill list by `kill_time_in_round` (line 173,
`round_kills_list.sort(key=lambda x: x.get('kill_time_in_round', 0))`,
also line 305 etc.); Python's sort is stable. -/
def sortKillsByTime (l : List Kill) : List Kill :=
  stableSort (fun a b => decide (a.kill_time_in_round ≤ b.kill_time_in_round)) l

/-- The trade conditions of lines 193-195: the trade kill's victim is the
player's killer, the time difference is within the 5000 ms window (in
either direction), and the trade kill was not made by the player. -/
def tradeCond (trade_kill : Kill) (killer_puuid : String) (player_death_time : ℤ)
    (p : String) : Bool :=
  trade_kill.victim_puuid == killer_puuid
    && decide ((trade_kill.kill_time_in_round - player_death_time).natAbs ≤ 5000)
    && trade_kill.killer_puuid != p

/-- The inner scan of lines 182-197: check all positions `j` of the sorted
round kill list, skipping only the death event's own position `i`. -/
def tradeScan (S : List Kill) (i : ℕ) (killer_puuid : String) (death_time : ℤ)
    (p : String) : Bool :=
  (List.range S.length).any fun j =>
    !(j == i) &&
      (match S[j]? with
       | some tk => tradeCond tk killer_puuid death_time p
       | none => false)

/-- Trade detection for one round (lines 164-198): sort the round's kills by
time, find the first event in which the player is the victim, and scan all
other events for a qualifying trade kill; `false` when the player has no
death event in the list. -/
def wasTraded (roundKills : List Kill) (p : String) : Bool :=
  let S := sortKillsByTime roundKills
  match S.findIdx? (fun k => k.victim_puuid == p) with
  | none => false
  | some i =>
    match S[i]? with
    | some d => tradeScan S i d.killer_puuid d.kill_time_in_round p
    | none => false

/-- The per-round KAST decision of lines 129-201, for a round in which the
player has a `player_stats` entry `st` and resolved round number
`round_num`. -/
def roundKast (matchKills : List Kill) (p : String) (st : PlayerRoundStat)
    (round_num : ℤ) : Bool :=
  let rkl := lookupRoundKills matchKills round_num
  let has_kill := decide (st.kills > 0)
  let has_assist := decide (st.assists > 0)
    || rkl.any (fun k => k.assistants.any (fun a => a == p))
  let survived0 := st.alive || st.was_alive || st.survived || !st.died_in_round
  let survived := survived0 || !(rkl.any (fun k => k.victim_puuid == p))
  has_kill || has_assist || survived || wasTraded rkl p

/-- The main loop of lines 107-213, accumulating `kast_rounds` and
`rounds_checked`; the counter is bumped both for skipped rounds (no
`player_stats` entry for the player, line 124) and for evaluated ones
(line 127). -/
def kastGo (matchKills : List Kill) (p : String) :
    List RoundInfo → ℕ → ℕ → ℕ × ℕ
  | [], kast, checked => (kast, checked)
  | r :: rest, kast, checked =>
    let rn := kastRoundNum r checked
    match r.player_stats.find? (fun s => s.player_puuid == p) with
    | none => kastGo matchKills p rest kast (checked + 1)
    | some st =>
      kastGo matchKills p rest
        (if roundKast matchKills p st rn then kast + 1 else kast) (checked + 1)

/-- Model of `calculate_kast(match_data, player_puuid, total_rounds)`
(lines 82-224).  The source's `if not match_data` guard (line 86) is
subsumed by the empty-rounds guard: a falsy (empty) `match_data` dict has
no `rounds` entry, so `round_data` is `[]` and line 92 returns `0.0`
anyway.  The `not player_puuid` guard is the `p = ""` case. -/
def calculate_kast (m : MatchData) (p : String) (total_rounds : ℕ) : ℚ :=
  if p = "" ∨ total_rounds = 0 then 0
  else if m.rounds.isEmpty then 0
  else
    let res := kastGo m.kills p m.rounds 0 0
    round1 ((res.1 : ℚ) / ((max res.2 total_rounds : ℕ) : ℚ) * 100)

/-- The number of rounds that satisfy the per-round KAST decision for
player `p`, indexing the rounds from 0 exactly as the `rounds_checked`
counter does.  This is the `kastRoundCount` of the claimed aggregate
formula. -/
def kastRoundCount (m : MatchData) (p : String) : ℕ :=
  m.rounds.enum.countP fun ir =>
    match ir.2.player_stats.find? (fun s => s.player_puuid == p) with
    | some st => roundKast m.kills p st (kastRoundNum ir.2 ir.1)
    | none => false

/-! ## Derived metrics -/

/-- Model of `calculate_kda` (lines 64-68).  The value lives in
`WithTop ℚ` so that Python's `float('inf')` is `⊤`. -/
def calculate_kda (kills deaths assists : ℕ) : WithTop ℚ :=
  if deaths = 0 then (if kills + assists > 0 then ⊤ else (0 : ℚ))
  else ((round2 (((kills : ℚ) + assists) / deaths) : ℚ) : WithTop ℚ)

/-- The KDA expression at the `log_match_data` call site (line 480):
`round((kills + assists) / deaths, 2) if deaths > 0 else (kills + assists)`
— when `deaths == 0` it yields the integer `kills + assists`, never
infinity. -/
def log_kda (kills deaths assists : ℕ) : WithTop ℚ :=
  if deaths > 0 then ((round2 (((kills : ℚ) + assists) / deaths) : ℚ) : WithTop ℚ)
  else (((kills + assists : ℕ) : ℚ) : WithTop ℚ)

/-- Modelled from the spec: the KDA rule of spec section 4.3 —
`(kills+assists)/deaths` rounded to 2 decimals; if `deaths == 0`, result is
`+infinity` when `kills+assists > 0`, else `0.0`. -/
def kda_spec (kills deaths assists : ℕ) : WithTop ℚ :=
  if deaths = 0 then (if kills + assists > 0 then ⊤ else (0 : ℚ))
  else ((round2 (((kills : ℚ) + assists) / deaths) : ℚ) : WithTop ℚ)

/-- ACS at the `log_match_data` site (line 477):
`int(total_score / rounds_played) if rounds_played > 0 else 0`.  Scores and
round counts are non-negative, so Python's `int()` truncation is `ℕ`
division. -/
def log_acs (total_score rounds_played : ℕ) : ℕ :=
  if rounds_played > 0 then total_score / rounds_played else 0

/-- Model of `get_acs` (lines 709-712): when `rounds_played == 0` it
returns the raw `total_score`, not `0`. -/
def get_acs (total_score rounds_played : ℕ) : ℕ :=
  if rounds_played > 0 then total_score / rounds_played else total_score

/-- The ACS display expression of `create_comprehensive_match_embed`
(lines 747-748), identical in shape to `get_acs`. -/
def embed_acs_display (total_score rounds_played : ℕ) : ℕ :=
  if rounds_played > 0 then total_score / rounds_played else total_score

/-- Modelled from the spec: the canonical ACS of spec section 4.3 —
integer-truncated `totalScore/roundsPlayed`, and `0` if
`roundsPlayed == 0`. -/
def acs_spec (total_score rounds_played : ℕ) : ℕ :=
  if rounds_played = 0 then 0 else total_score / rounds_played

/-! ## Multi-kill bucketing -/

/-- A generic per-round dict as consumed by `count_multikills`: the two
possible kill-count keys of line 235. -/
structure MKRound where
  kills : Option ℕ
  player_kills : Option ℕ
deriving DecidableEq

/-- Line 235: `round_data.get('kills', round_data.get('player_kills', 0))`. -/
def mkKillsInRound (r : MKRound) : ℕ :=
  r.kills.getD (r.player_kills.getD 0)

/-- The `2k`/`3k`/`4k`/`5k` counters. -/
structure Multikills where
  k2 : ℕ
  k3 : ℕ
  k4 : ℕ
  k5 : ℕ
deriving DecidableEq

/-- The bucketing branch of lines 237-245 (and, identically, lines
923-931): a round with at least 2 kills bumps exactly one bucket, keyed by
exact kill count with 5-or-more going to the `5k` bucket.  The final
`kills_in_round >= 5` test is kept even though it is always true at that
point, mirroring the source's `elif` chain. -/
def bumpMultikills (mk : Multikills) (kills_in_round : ℕ) : Multikills :=
  if kills_in_round ≥ 2 then
    if kills_in_round = 2 then { mk with k2 := mk.k2 + 1 }
    else if kills_in_round = 3 then { mk with k3 := mk.k3 + 1 }
    else if kills_in_round = 4 then { mk with k4 := mk.k4 + 1 }
    else if kills_in_round ≥ 5 then { mk with k5 := mk.k5 + 1 }
    else mk
  else mk

/-- Model of `count_multikills(player_rounds)` (lines 226-247); the
`if not player_rounds` early return equals folding over the empty list. -/
def count_multikills (player_rounds : List MKRound) : Multikills :=
  player_rounds.foldl (fun mk r => bumpMultikills mk (mkKillsInRound r)) ⟨0, 0, 0, 0⟩

/-- The bucketed multi-kill computation of
`create_comprehensive_match_embed` (lines 917-932): per round, the first
`player_stats` entry with the player's puuid is used (the loop `break`s
after the first match); the `if round_data and player_puuid` guard keeps
the zero counters when the puuid is falsy (empty). -/
def embed_multikills (round_data : List RoundInfo) (p : String) : Multikills :=
  if p = "" then ⟨0, 0, 0, 0⟩
  else
    round_data.foldl
      (fun mk r =>
        match r.player_stats.find? (fun s => s.player_puuid == p) with
        | some st => bumpMultikills mk st.kills
        | none => mk)
      ⟨0, 0, 0, 0⟩

/-- The per-round kill count the embed variant sees for player `p` in round
`r`: the `kills` field of the first matching `player_stats` entry, if
any. -/
def embedRoundKills (r : RoundInfo) (p : String) : Option ℕ :=
  (r.player_stats.find? (fun s => s.player_puuid == p)).map (·.kills)

/-! ## First-blood analysis (`analyze_first_blood_win_rate`, lines 266-330) -/

/-- The aggregate record built by `analyze_first_blood_win_rate`. -/
structure FBStats where
  total_rounds : ℕ
  first_blood_rounds : ℕ
  first_blood_wins : ℕ
  first_blood_losses : ℕ
  win_rate : ℚ
deriving DecidableEq

/-- Round-number resolution of line 293 (also line 341):
`round_info.get('round_num', round_info.get('round', 0))` — plain
presence-based lookups, unlike the truthiness chain in
`calculate_kast`. -/
def fbRoundNum (r : RoundInfo) : ℤ :=
  match r.round_num with
  | some v => v
  | none => r.round.getD 0

/-- Per-round body of lines 292-318.  A round is skipped when its
`winning_team` is falsy or its resolved round number is not a key of the
kills dict (no ±1 fallback here).  The kills group for a present key is
nonempty, so the `if round_kills:` test of line 303 is the `head?` match. -/
def fbProcessRound (kills : List Kill) (acc : FBStats) (r : RoundInfo) : FBStats :=
  let rn := fbRoundNum r
  let wt := lowerStr r.winning_team
  let group := killsForRound kills rn
  if wt = "" ∨ group.isEmpty then acc
  else
    let acc1 : FBStats := { acc with total_rounds := acc.total_rounds + 1 }
    match (sortKillsByTime group).head? with
    | none => acc1
    | some first_kill =>
      let kt := lowerStr first_kill.killer_team
      if kt = "" then acc1
      else if kt = wt then
        { acc1 with
          first_blood_rounds := acc1.first_blood_rounds + 1
          first_blood_wins := acc1.first_blood_wins + 1 }
      else
        { acc1 with
          first_blood_rounds := acc1.first_blood_rounds + 1
          first_blood_losses := acc1.first_blood_losses + 1 }

/-- Per-match body of lines 276-318: matches with an empty kill list or an
empty round list are skipped entirely (line 280). -/
def fbProcessMatch (acc : FBStats) (m : MatchData) : FBStats :=
  if m.kills.isEmpty || m.rounds.isEmpty then acc
  else m.rounds.foldl (fbProcessRound m.kills) acc

/-- Model of `analyze_first_blood_win_rate(all_matches)` (lines 266-330),
including the final win-rate computation of lines 321-325. -/
def analyze_first_blood_win_rate (all_matches : List MatchData) : FBStats :=
  let s := all_matches.foldl fbProcessMatch ⟨0, 0, 0, 0, 0⟩
  if s.first_blood_rounds > 0 then
    { s with
      win_rate := round1 ((s.first_blood_wins : ℚ) / s.first_blood_rounds * 100) }
  else { s with win_rate := 0 }

/-! ## Effective-loadout analysis (`analyze_effective_loadouts`,
lines 332-421) -/

/-- The per-signature record of `loadout_stats`. -/
structure LoadoutStats where
  total_rounds : ℕ
  wins : ℕ
  total_value : ℕ
  win_rate : ℚ
  primary_weapons : List String
  armor_count : ℕ
deriving DecidableEq

/-- Lines 363-373: the `(weapon, armor, loadout_value)` triple collected
for one player, with the source's defaults applied. -/
def playerLoadout (p : PlayerRoundStat) : String × String × ℕ :=
  (p.economy.weapon.getD "Unknown", p.economy.armor.getD "None",
    p.economy.loadout_value)

/-- Lines 358-374 for one team: the loadout triples of the players whose
lowercased `team` equals `team`, in `player_stats` order. -/
def teamLoadouts (ps : List PlayerRoundStat) (team : String) :
    List (String × String × ℕ) :=
  (ps.filter (fun p => lowerStr p.team == team)).map playerLoadout

/-- Lines 387-399: create the signature's entry if absent (appended at the
end, preserving dict insertion order), then bump `total_rounds` and,
when the team won, `wins`. -/
def bumpLoadout (stats : List (String × LoadoutStats)) (sig : String)
    (init : LoadoutStats) (won : Bool) : List (String × LoadoutStats) :=
  if stats.any (fun e => e.1 == sig) then
    stats.map fun e =>
      if e.1 == sig then
        (e.1, { e.2 with
                 total_rounds := e.2.total_rounds + 1
                 wins := e.2.wins + (if won then 1 else 0) })
      else e
  else
    stats ++ [(sig, { init with total_rounds := 1, wins := if won then 1 else 0 })]

/-- Lines 377-399 for one team of a round: only full (5-player) team data
produces a signature.  The signature string is
`'-'.join(weapons[:3]) + '|A' + str(armor_count) + '|$' + str(total_value)`
with `weapons` the sorted weapon names. -/
def processTeamRound (stats : List (String × LoadoutStats)) (winning_team : String)
    (tl : List (String × String × ℕ)) (team : String) :
    List (String × LoadoutStats) :=
  if tl.length = 5 then
    let weapons := stableSort strLeB (tl.map (·.1))
    let armor_count := (tl.filter (fun x => x.2.1 ≠ "None")).length
    let total_value := (tl.map (·.2.2)).sum
    let signature := String.intercalate "-" (weapons.take 3) ++ "|A"
      ++ toString armor_count ++ "|$" ++ toString total_value
    let init : LoadoutStats :=
      { total_rounds := 0, wins := 0, total_value := total_value, win_rate := 0,
        primary_weapons := weapons.take 3, armor_count := armor_count }
    bumpLoadout stats signature init (team == winning_team)
  else stats

/-- Lines 340-399 for one round: rounds numbered 1, 2, 13 or 14 and rounds
with a falsy `winning_team` are skipped; then the red team is processed
before the blue team, as in the `for team in ['red', 'blue']` loop. -/
def processRoundLoadouts (stats : List (String × LoadoutStats)) (r : RoundInfo) :
    List (String × LoadoutStats) :=
  let rn := fbRoundNum r
  if rn = 1 ∨ rn = 2 ∨ rn = 13 ∨ rn = 14 then stats
  else
    let wt := lowerStr r.winning_team
    if wt = "" then stats
    else
      let redL := teamLoadouts r.player_stats "red"
      let blueL := teamLoadouts r.player_stats "blue"
      processTeamRound (processTeamRound stats wt redL "red") wt blueL "blue"

/-- Lines 336-399: the raw `loadout_stats` table over all matches, as an
insertion-ordered association list. -/
def buildLoadoutStats (ms : List MatchData) : List (String × LoadoutStats) :=
  ms.foldl (fun st m => m.rounds.foldl processRoundLoadouts st) []

/-- Lines 402-404: fill in each signature's `win_rate`. -/
def applyLoadoutWinRates (stats : List (String × LoadoutStats)) :
    List (String × LoadoutStats) :=
  stats.map fun e =>
    if e.2.total_rounds > 0 then
      (e.1, { e.2 with
               win_rate := round1 ((e.2.wins : ℚ) / e.2.total_rounds * 100) })
    else e

/-- The ranking key of line 413:
`(win_rate / max(total_value, 1)) * 100`. -/
def loadoutKey (s : LoadoutStats) : ℚ :=
  s.win_rate / ((max s.total_value 1 : ℕ) : ℚ) * 100

/-- Model of `analyze_effective_loadouts(all_matches)` (lines 332-421).
When at least one signature has 5 or more observed rounds, the result is
the ≥5-round signatures sorted by the ranking key descending (Python's
`sorted(..., reverse=True)` is stable), truncated to 10; otherwise the
function falls through to `return loadout_stats`, the full unfiltered
table (line 421). -/
def analyze_effective_loadouts (ms : List MatchData) :
    List (String × LoadoutStats) :=
  let stats := applyLoadoutWinRates (buildLoadoutStats ms)
  let meaningful := stats.filter (fun e => decide (e.2.total_rounds ≥ 5))
  if meaningful.isEmpty then stats
  else
    (stableSort (fun a b => decide (loadoutKey b.2 ≤ loadoutKey a.2)) meaningful).take 10

/-! ## Server-stats ACS revalidation (`slash_server_stats`) -/

/-- Line 1841 (and line 1920): the ACS recalculated from the raw score,
`int(raw_score / rounds_played) if rounds_played > 0 and raw_score > 0
else 0`. -/
def recalculated_acs (raw_score rounds_played : ℕ) : ℕ :=
  if rounds_played > 0 ∧ raw_score > 0 then raw_score / rounds_played else 0

/-- Lines 1843-1845: the agent's ACS sample list is extended only when the
recalculated value lies in the sane `0..1000` band (the lower bound is
vacuous over `ℕ` but kept from the source's `0 <= calculated_acs`). -/
def appendAgentAcs (acc : List ℕ) (raw_score rounds_played : ℕ) : List ℕ :=
  let calculated_acs := recalculated_acs raw_score rounds_played
  if 0 ≤ calculated_acs ∧ calculated_acs ≤ 1000 then acc ++ [calculated_acs] else acc

/-- Lines 1919-1923: the per-match ACS added into `acs_total`; a value
above 1000 is replaced by 0 (treated as absent). -/
def validated_acs (total_score rounds_played : ℕ) : ℕ :=
  let current_acs := recalculated_acs total_score rounds_played
  if current_acs > 1000 then 0 else current_acs

/-! ## Round-economy classifier

The round-economy classifier of spec section 4.4 (pistol / anti-eco /
eco / force-buy / full-buy) has no implementation under `src/`; it is
modelled from the spec. -/

/-- Modelled from the spec: the classification rule of spec section 4.4,
evaluated in the stated priority order.  `wonPreviousRound` is the rule-2
context (the team won the immediately preceding round),
`loadoutValues` the loadout values present for the round's players, and
`lostPreviousTwo` the rule-4 loss-streak flag.  Rule 3 takes the mean over
the players with non-zero loadout; when loadout data is present but all
values are zero the mean is taken as 0 (the eco threshold), a detail the
spec leaves open and which rule 1 makes irrelevant to pistol rounds. -/
def classify_round_economy (round_number : ℕ) (wonPreviousRound : Bool)
    (loadoutValues : List ℕ) (lostPreviousTwo : Bool) : String :=
  if round_number = 1 ∨ round_number = 13 then "pistol"
  else if (round_number = 2 ∨ round_number = 14) ∧ wonPreviousRound then "anti-eco"
  else if ¬ loadoutValues.isEmpty then
    let nz := loadoutValues.filter (fun v => v ≠ 0)
    let mean : ℚ := (nz.sum : ℚ) / (nz.length : ℚ)
    if mean < 1000 then "eco" else if mean < 2500 then "force-buy" else "full-buy"
  else if lostPreviousTwo then "eco"
  else if round_number = 2 ∨ round_number = 3 ∨ round_number = 14 ∨ round_number = 15
    then "force-buy"
  else "full-buy"

/-! ## Concrete data used by witnesses and counterexamples -/

/-- A blank `player_stats` entry: every optional field takes its source
default (note `died_in_round` defaults to `True` at line 151). -/
def blankStat : PlayerRoundStat :=
  { player_puuid := "", kills := 0, assists := 0, alive := false,
    was_alive := false, survived := false, died_in_round := true,
    team := "", economy := ⟨0, none, none⟩ }

/-- A round whose only `player_stats` entry carries an empty (falsy) puuid
and one kill. -/
def kastEmptyPuuidMatch : MatchData :=
  { rounds := [{ round_num := some 1, round := none, round_number := none,
                 winning_team := "",
                 player_stats := [{ blankStat with kills := 1 }] }],
    kills := [] }

/-- A round in which player `"x"` records exactly five kills. -/
def fiveKillRound : RoundInfo :=
  { round_num := some 3, round := none, round_number := none,
    winning_team := "",
    player_stats := [{ blankStat with player_puuid := "x", kills := 5 }] }

/-- Player `"P"` dies to `"K"` at 10000 ms. -/
def tradeDeathKill : Kill :=
  { round := 1, kill_time_in_round := 10000, killer_puuid := "K",
    victim_puuid := "P", killer_team := "red", assistants := [] }

/-- The killer `"K"` is eliminated by `"T"` at 15000 ms — exactly 5000 ms
after the death. -/
def tradeRevengeKill : Kill :=
  { round := 1, kill_time_in_round := 15000, killer_puuid := "T",
    victim_puuid := "K", killer_team := "blue", assistants := [] }

/-- A match whose only kill event is tagged round 2 while its only round
record is numbered 1 with a decided winner: the ±1 skew scenario. -/
def skewMatch : MatchData :=
  { rounds := [{ round_num := some 1, round := none, round_number := none,
                 winning_team := "Red", player_stats := [] }],
    kills := [{ round := 2, kill_time_in_round := 100, killer_puuid := "a",
                victim_puuid := "b", killer_team := "Red", assistants := [] }] }

/-- A full red-team round (5 players, Classic pistols, 100 value each)
numbered `n`, won by red. -/
def classicRound (n : ℤ) : RoundInfo :=
  { round_num := some n, round := none, round_number := none,
    winning_team := "Red",
    player_stats :=
      (List.range 5).map fun i =>
        { blankStat with
          player_puuid := toString i, team := "Red",
          economy := ⟨100, some "Classic", none⟩ } }

/-- Five qualifying rounds with the same full-team loadout signature. -/
def loadoutMatch5 : MatchData :=
  { rounds := [classicRound 3, classicRound 4, classicRound 5,
               classicRound 6, classicRound 7],
    kills := [] }

/-- A single qualifying round — its signature is observed once, far below
the 5-round threshold. -/
def loadoutMatch1 : MatchData :=
  { rounds := [classicRound 3], kills := [] }

/-! ## Generic helper lemmas -/

theorem foldl_invariant {β γ : Type*} (P : γ → Prop) (f : γ → β → γ)
    (hf : ∀ c b, P c → P (f c b)) :
    ∀ (l : List β) (c : γ), P c → P (l.foldl f c) := by
  intro l
  induction l with
  | nil => intro c hc; simpa using hc
  | cons b bs ih => intro c hc; rw [List.foldl_cons]; exact ih _ (hf c b hc)

theorem insertLe_perm {α : Type*} (le : α → α → Bool) (x : α) (l : List α) :
    (insertLe le x l).Perm (x :: l) := by
  induction l with
  | nil => simp [insertLe]
  | cons y ys ih =>
    rw [insertLe]
    by_cases h : le y x = true
    · rw [if_pos h]
      exact (ih.cons y).trans (List.Perm.swap x y ys)
    · rw [if_neg h]

theorem foldl_insertLe_perm {α : Type*} (le : α → α → Bool) :
    ∀ (l acc : List α),
      (l.foldl (fun acc x => insertLe le x acc) acc).Perm (acc ++ l) := by
  intro l
  induction l with
  | nil => intro acc; simp
  | cons x xs ih =>
    intro acc
    rw [List.foldl_cons]
    refine (ih (insertLe le x acc)).trans ?_
    refine (List.Perm.append_right xs (insertLe_perm le x acc)).trans ?_
    exact List.perm_middle.symm

theorem stableSort_perm {α : Type*} (le : α → α → Bool) (l : List α) :
    (stableSort le l).Perm l := by
  simpa using foldl_insertLe_perm le l []

theorem insertLe_pairwise {α : Type*} {le : α → α → Bool}
    (htot : ∀ a b, le a b = true ∨ le b a = true)
    (htrans : ∀ a b c, le a b = true → le b c = true → le a c = true)
    (x : α) {l : List α} (hl : l.Pairwise (fun a b => le a b = true)) :
    (insertLe le x l).Pairwise (fun a b => le a b = true) := by
  induction l with
  | nil => simp [insertLe]
  | cons y ys ih =>
    rw [List.pairwise_cons] at hl
    obtain ⟨hy, hys⟩ := hl
    rw [insertLe]
    by_cases h : le y x = true
    · rw [if_pos h]
      rw [List.pairwise_cons]
      refine ⟨?_, ih hys⟩
      intro b hb
      have hb' := (insertLe_perm le x ys).mem_iff.mp hb
      rcases List.mem_cons.mp hb' with rfl | hbys
      · exact h
      · exact hy b hbys
    · rw [if_neg h]
      have hxy : le x y = true := (htot x y).resolve_right h
      rw [List.pairwise_cons]
      refine ⟨?_, List.pairwise_cons.mpr ⟨hy, hys⟩⟩
      intro b hb
      rcases List.mem_cons.mp hb with rfl | hbys
      · exact hxy
      · exact htrans x y b hxy (hy b hbys)

theorem stableSort_pairwise {α : Type*} {le : α → α → Bool}
    (htot : ∀ a b, le a b = true ∨ le b a = true)
    (htrans : ∀ a b c, le a b = true → le b c = true → le a c = true)
    (l : List α) :
    (stableSort le l).Pairwise (fun a b => le a b = true) := by
  unfold stableSort
  exact foldl_invariant (P := fun acc => acc.Pairwise (fun a b => le a b = true))
    (fun acc x => insertLe le x acc)
    (fun acc x hacc => insertLe_pairwise htot htrans x hacc) l [] (by simp)

/-! ## Claim C4: KDA at its two computation sites -/

/-- Claim C4 (amended): the spec's KDA rule (infinity on `deaths == 0` with
a positive numerator) holds at `calculate_kda`; at the `log_match_data`
site it holds only for `deaths > 0` — when `deaths == 0` that site returns
the plain sum `kills + assists` instead of infinity. -/
theorem kda_sites (k d a : ℕ) :
    calculate_kda k d a = kda_spec k d a ∧
    (0 < d → log_kda k d a = kda_spec k d a) ∧
    (d = 0 → log_kda k d a = (((k + a : ℕ) : ℚ) : WithTop ℚ)) := by
  refine ⟨rfl, ?_, ?_⟩
  · intro hd
    unfold log_kda kda_spec
    rw [if_pos hd, if_neg (by omega)]
  · intro hd
    unfold log_kda
    rw [if_neg (by omega)]

/-- Witness for `kda_sites` at concrete inputs. -/
theorem kda_sites_witness :
    log_kda 2 3 4 = kda_spec 2 3 4 ∧
    log_kda 2 0 4 = (((2 + 4 : ℕ) : ℚ) : WithTop ℚ) :=
  ⟨(kda_sites 2 3 4).2.1 (by decide), (kda_sites 2 0 4).2.2 rfl⟩

/-- Counterexample to claim C4 as stated: with `kills = 2`, `deaths = 0`,
`assists = 0` the `log_match_data` site yields `2`, not the `+infinity`
the claim requires of every KDA site. -/
theorem kda_log_counterexample : log_kda 2 0 0 ≠ kda_spec 2 0 0 := by
  unfold log_kda kda_spec
  norm_num

/-! ## Claim C5: ACS at its computation sites -/

/-- Claim C5 (amended): every ACS site truncates `totalScore/roundsPlayed`
toward zero when `roundsPlayed > 0`; on `roundsPlayed == 0` the
`log_match_data` site returns `0` as the spec demands, but `get_acs` and
the embed display return the raw `totalScore` instead. -/
theorem acs_sites (s r : ℕ) :
    log_acs s r = acs_spec s r ∧
    (0 < r → get_acs s r = acs_spec s r ∧ embed_acs_display s r = acs_spec s r) ∧
    (r = 0 → get_acs s r = s ∧ embed_acs_display s r = s) := by
  unfold log_acs get_acs embed_acs_display acs_spec
  refine ⟨?_, ?_, ?_⟩
  · rcases Nat.eq_zero_or_pos r with h | h
    · simp [h]
    · rw [if_pos h, if_neg (by omega)]
  · intro h
    rw [if_pos h, if_neg (by omega : ¬ r = 0)]
    exact ⟨rfl, rfl⟩
  · intro h
    simp [h]

/-- Witness for `acs_sites` at concrete inputs. -/
theorem acs_sites_witness :
    get_acs 100 4 = acs_spec 100 4 ∧ get_acs 7 0 = 7 :=
  ⟨((acs_sites 100 4).2.1 (by decide)).1, ((acs_sites 7 0).2.2 rfl).1⟩

/-- Counterexample to claim C5 as stated: with `totalScore = 250` and
`roundsPlayed = 0`, `get_acs` returns `250`, not the `0` the claim
requires of every ACS site. -/
theorem get_acs_counterexample : get_acs 250 0 ≠ acs_spec 250 0 := by decide

/-! ## Claim C8: pistol rounds are classified unconditionally -/

/-- Claim C8: for a round numbered 1 or 13 the round-economy classifier
answers `pistol` whatever the previous-round context, loadout values or
loss streak are — rule 1 fires before the loadout-value branch is ever
consulted. -/
theorem pistol_rounds_unconditional (rn : ℕ) (wonPrev : Bool)
    (loadoutValues : List ℕ) (lostPrevTwo : Bool) (h : rn = 1 ∨ rn = 13) :
    classify_round_economy rn wonPrev loadoutValues lostPrevTwo = "pistol" := by
  unfold classify_round_economy
  rw [if_pos h]

/-- Witness for `pistol_rounds_unconditional`: round 1 with a 4500-currency
loadout for every player is still `pistol`. -/
theorem pistol_rounds_unconditional_witness :
    classify_round_economy 1 false [4500, 4500, 4500, 4500, 4500] false = "pistol" :=
  pistol_rounds_unconditional 1 false [4500, 4500, 4500, 4500, 4500] false (Or.inl rfl)

/-! ## Claim C9: out-of-band recalculated ACS is treated as absent -/

/-- Claim C9: when the ACS recalculated from raw score and rounds exceeds
the 0–1000 band (over `ℕ` only the upper bound can fail), the agent-stats
site leaves its sample list untouched and the player-stats site
contributes `0` to the running totals. -/
theorem acs_out_of_range_dropped (score rounds : ℕ) (acc : List ℕ)
    (h : 1000 < recalculated_acs score rounds) :
    appendAgentAcs acc score rounds = acc ∧ validated_acs score rounds = 0 := by
  unfold appendAgentAcs validated_acs
  constructor
  · rw [if_neg]
    rintro ⟨-, h2⟩
    omega
  · rw [if_pos h]

/-- Witness for `acs_out_of_range_dropped`: a raw score of 5000 over one
round recalculates to 5000, which is discarded at both sites. -/
theorem acs_out_of_range_dropped_witness :
    appendAgentAcs [3] 5000 1 = [3] ∧ validated_acs 5000 1 = 0 :=
  acs_out_of_range_dropped 5000 1 [3] (by decide)

/-! ## Claim C6: multi-kill bucketing -/

theorem bumpMultikills_k2 (mk : Multikills) (v : ℕ) :
    (bumpMultikills mk v).k2 = mk.k2 + (if v = 2 then 1 else 0) := by
  unfold bumpMultikills
  split_ifs <;> simp_all <;> omega

theorem bumpMultikills_k3 (mk : Multikills) (v : ℕ) :
    (bumpMultikills mk v).k3 = mk.k3 + (if v = 3 then 1 else 0) := by
  unfold bumpMultikills
  split_ifs <;> simp_all <;> omega

theorem bumpMultikills_k4 (mk : Multikills) (v : ℕ) :
    (bumpMultikills mk v).k4 = mk.k4 + (if v = 4 then 1 else 0) := by
  unfold bumpMultikills
  split_ifs <;> simp_all <;> omega

theorem bumpMultikills_k5 (mk : Multikills) (v : ℕ) :
    (bumpMultikills mk v).k5 = mk.k5 + (if 5 ≤ v then 1 else 0) := by
  unfold bumpMultikills
  split_ifs <;> simp_all <;> omega

theorem foldl_bumpMultikillsOpt {β : Type*} (g : β → Option ℕ) :
    ∀ (l : List β) (mk : Multikills),
      l.foldl (fun mk r =>
          match g r with
          | some n => bumpMultikills mk n
          | none => mk) mk =
        { k2 := mk.k2 + l.countP (fun r => g r == some 2),
          k3 := mk.k3 + l.countP (fun r => g r == some 3),
          k4 := mk.k4 + l.countP (fun r => g r == some 4),
          k5 := mk.k5 + l.countP (fun r =>
            match g r with
            | some n => decide (5 ≤ n)
            | none => false) } := by
  intro l
  induction l with
  | nil => intro mk; simp
  | cons x xs ih =>
    intro mk
    rw [List.foldl_cons]
    cases hg : g x with
    | none =>
      simp [hg, List.countP_cons, ih]
    | some n =>
      simp only [hg, ih]
      have h2 := bumpMultikills_k2 mk n
      have h3 := bumpMultikills_k3 mk n
      have h4 := bumpMultikills_k4 mk n
      have h5 := bumpMultikills_k5 mk n
      simp only [List.countP_cons, hg]
      refine Multikills.mk.injEq .. |>.mpr ?_
      refine ⟨?_, ?_, ?_, ?_⟩ <;> simp only [h2, h3, h4, h5] <;> split_ifs <;>
        simp_all <;> omega

theorem foldl_bumpMultikills {β : Type*} (g : β → ℕ) :
    ∀ (l : List β) (mk : Multikills),
      l.foldl (fun mk r => bumpMultikills mk (g r)) mk =
        { k2 := mk.k2 + l.countP (fun r => decide (g r = 2)),
          k3 := mk.k3 + l.countP (fun r => decide (g r = 3)),
          k4 := mk.k4 + l.countP (fun r => decide (g r = 4)),
          k5 := mk.k5 + l.countP (fun r => decide (5 ≤ g r)) } := by
  intro l
  induction l with
  | nil => intro mk; simp
  | cons x xs ih =>
    intro mk
    rw [List.foldl_cons, ih]
    have h2 := bumpMultikills_k2 mk (g x)
    have h3 := bumpMultikills_k3 mk (g x)
    have h4 := bumpMultikills_k4 mk (g x)
    have h5 := bumpMultikills_k5 mk (g x)
    simp only [List.countP_cons]
    refine Multikills.mk.injEq .. |>.mpr ?_
    refine ⟨?_, ?_, ?_, ?_⟩ <;> simp only [h2, h3, h4, h5] <;> split_ifs <;>
      simp_all <;> omega

/-- Claim C6: over any sequence of per-round stats, each round with at
least 2 kills bumps exactly one bucket, keyed by the exact per-round kill
count with 5 or more going to the `5k` bucket; the bucketed variant in
`create_comprehensive_match_embed` does the same per matching
`player_stats` entry (for a non-falsy puuid). -/
theorem multikill_bucketing (rs : List MKRound) (rounds : List RoundInfo) (p : String) :
    count_multikills rs =
      { k2 := rs.countP (fun r => decide (mkKillsInRound r = 2)),
        k3 := rs.countP (fun r => decide (mkKillsInRound r = 3)),
        k4 := rs.countP (fun r => decide (mkKillsInRound r = 4)),
        k5 := rs.countP (fun r => decide (5 ≤ mkKillsInRound r)) } ∧
    (p ≠ "" →
      embed_multikills rounds p =
        { k2 := rounds.countP (fun r => embedRoundKills r p == some 2),
          k3 := rounds.countP (fun r => embedRoundKills r p == some 3),
          k4 := rounds.countP (fun r => embedRoundKills r p == some 4),
          k5 := rounds.countP (fun r =>
            match embedRoundKills r p with
            | some n => decide (5 ≤ n)
            | none => false) }) := by
  constructor
  · unfold count_multikills
    rw [foldl_bumpMultikills mkKillsInRound rs]
    simp
  · intro hp
    unfold embed_multikills
    rw [if_neg hp]
    have hfun : (fun (mk : Multikills) (r : RoundInfo) =>
        match r.player_stats.find? (fun s => s.player_puuid == p) with
        | some st => bumpMultikills mk st.kills
        | none => mk) =
        (fun (mk : Multikills) (r : RoundInfo) =>
          match embedRoundKills r p with
          | some n => bumpMultikills mk n
          | none => mk) := by
      funext mk r
      unfold embedRoundKills
      cases r.player_stats.find? (fun s => s.player_puuid == p) <;> rfl
    rw [hfun]
    rw [foldl_bumpMultikillsOpt (fun r => embedRoundKills r p) rounds]
    simp

/-- Witness for `multikill_bucketing`: one round with exactly 5 kills for
player `"x"`. -/
theorem multikill_bucketing_witness :
    embed_multikills [fiveKillRound] "x" =
      { k2 := [fiveKillRound].countP (fun r => embedRoundKills r "x" == some 2),
        k3 := [fiveKillRound].countP (fun r => embedRoundKills r "x" == some 3),
        k4 := [fiveKillRound].countP (fun r => embedRoundKills r "x" == some 4),
        k5 := [fiveKillRound].countP (fun r =>
          match embedRoundKills r "x" with
          | some n => decide (5 ≤ n)
          | none => false) } :=
  (multikill_bucketing [] [fiveKillRound] "x").2 (by decide)

/-! ## Claim C3: the round-kills fallback lookup across modules -/

/-- Claim C3 (amended): the KAST evaluator's lookup implements the spec's
round / round+1 / round−1 fallback, returning an empty list exactly when
none of the three keys exist; the first-blood analysis instead consults
only the round's own key (an absent key skips the round, even when a ±1
key exists). -/
theorem lookup_fallback_modules (kills : List Kill) (n : ℤ) :
    lookupRoundKills kills n = spec_lookupRoundKills kills n ∧
    (lookupRoundKills kills n = [] ↔
      killsForRound kills n = [] ∧ killsForRound kills (n + 1) = [] ∧
        killsForRound kills (n - 1) = []) ∧
    fbRoundKills kills n = killsForRound kills n := by
  refine ⟨?_, ?_, rfl⟩
  · simp only [lookupRoundKills, spec_lookupRoundKills, List.isEmpty_iff, ne_eq]
    split_ifs <;> first | rfl | tauto
  · simp only [lookupRoundKills, List.isEmpty_iff]
    split_ifs with h1 h2 <;> constructor <;> intro hx <;> tauto

/-- Counterexample to claim C3 as stated: with the only kill event tagged
round 2 and a round record numbered 1, the first-blood module's lookup
yields nothing (the round is skipped end to end, `total_rounds` stays 0),
while the claimed fallback lookup is nonempty. -/
theorem lookup_fallback_counterexample :
    fbRoundKills skewMatch.kills 1 = [] ∧
    lookupRoundKills skewMatch.kills 1 ≠ [] ∧
    (analyze_first_blood_win_rate [skewMatch]).total_rounds = 0 := by
  refine ⟨by decide, by decide, by decide⟩

/-! ## Claim C10: first-blood record invariants -/

theorem fbProcessRound_invariant (kills : List Kill) (acc : FBStats) (r : RoundInfo)
    (h : acc.first_blood_wins + acc.first_blood_losses = acc.first_blood_rounds ∧
      acc.first_blood_rounds ≤ acc.total_rounds) :
    (fbProcessRound kills acc r).first_blood_wins +
        (fbProcessRound kills acc r).first_blood_losses =
      (fbProcessRound kills acc r).first_blood_rounds ∧
    (fbProcessRound kills acc r).first_blood_rounds ≤
      (fbProcessRound kills acc r).total_rounds := by
  simp only [fbProcessRound]
  obtain ⟨hwl, hrt⟩ := h
  split_ifs with h1
  · exact ⟨hwl, hrt⟩
  · cases (sortKillsByTime (killsForRound kills (fbRoundNum r))).head? with
    | none => refine ⟨?_, ?_⟩ <;> dsimp only <;> omega
    | some fk =>
      dsimp only
      split_ifs <;> refine ⟨?_, ?_⟩ <;> dsimp only <;> omega

theorem fbFold_invariant (ms : List MatchData) :
    (ms.foldl fbProcessMatch ⟨0, 0, 0, 0, 0⟩).first_blood_wins +
        (ms.foldl fbProcessMatch ⟨0, 0, 0, 0, 0⟩).first_blood_losses =
      (ms.foldl fbProcessMatch ⟨0, 0, 0, 0, 0⟩).first_blood_rounds ∧
    (ms.foldl fbProcessMatch ⟨0, 0, 0, 0, 0⟩).first_blood_rounds ≤
      (ms.foldl fbProcessMatch ⟨0, 0, 0, 0, 0⟩).total_rounds := by
  refine foldl_invariant
    (P := fun s : FBStats =>
      s.first_blood_wins + s.first_blood_losses = s.first_blood_rounds ∧
        s.first_blood_rounds ≤ s.total_rounds)
    fbProcessMatch ?_ ms ⟨0, 0, 0, 0, 0⟩ (by simp)
  intro s m hs
  unfold fbProcessMatch
  split_ifs with h1
  · exact hs
  · exact foldl_invariant _ (fbProcessRound m.kills)
      (fun acc r hacc => fbProcessRound_invariant m.kills acc r hacc) m.rounds s hs

/-- Claim C10: the record returned by the first-blood analysis satisfies
`first_blood_wins + first_blood_losses = first_blood_rounds`,
`first_blood_rounds ≤ total_rounds`, and its `win_rate` is
`round(100 * wins / first_blood_rounds, 1)` when any first-blood round was
seen and `0.0` otherwise. -/
theorem first_blood_record_invariants (ms : List MatchData) :
    (analyze_first_blood_win_rate ms).first_blood_wins +
        (analyze_first_blood_win_rate ms).first_blood_losses =
      (analyze_first_blood_win_rate ms).first_blood_rounds ∧
    (analyze_first_blood_win_rate ms).first_blood_rounds ≤
      (analyze_first_blood_win_rate ms).total_rounds ∧
    (analyze_first_blood_win_rate ms).win_rate =
      (if 0 < (analyze_first_blood_win_rate ms).first_blood_rounds then
        round1 (100 * ((analyze_first_blood_win_rate ms).first_blood_wins : ℚ) /
          ((analyze_first_blood_win_rate ms).first_blood_rounds : ℚ))
      else 0) := by
  have hinv := fbFold_invariant ms
  set s := ms.foldl fbProcessMatch (⟨0, 0, 0, 0, 0⟩ : FBStats) with hs
  have hfields : (analyze_first_blood_win_rate ms).first_blood_wins = s.first_blood_wins ∧
      (analyze_first_blood_win_rate ms).first_blood_losses = s.first_blood_losses ∧
      (analyze_first_blood_win_rate ms).first_blood_rounds = s.first_blood_rounds ∧
      (analyze_first_blood_win_rate ms).total_rounds = s.total_rounds := by
    simp only [analyze_first_blood_win_rate, ← hs]
    split_ifs <;> exact ⟨rfl, rfl, rfl, rfl⟩
  have hwr : (analyze_first_blood_win_rate ms).win_rate =
      if 0 < s.first_blood_rounds then
        round1 ((s.first_blood_wins : ℚ) / (s.first_blood_rounds : ℚ) * 100)
      else 0 := by
    simp only [analyze_first_blood_win_rate, ← hs, gt_iff_lt]
    split_ifs <;> rfl
  rw [hfields.1, hfields.2.1, hfields.2.2.1, hfields.2.2.2, hwr]
  refine ⟨hinv.1, hinv.2, ?_⟩
  split_ifs with h1
  · congr 1
    ring
  · rfl

/-! ## Claim C1: the KAST percentage formula -/

theorem kastGo_eq (ks : List Kill) (p : String) :
    ∀ (rs : List RoundInfo) (kast checked : ℕ),
      kastGo ks p rs kast checked =
        (kast + (List.enumFrom checked rs).countP (fun ir =>
            match ir.2.player_stats.find? (fun s => s.player_puuid == p) with
            | some st => roundKast ks p st (kastRoundNum ir.2 ir.1)
            | none => false),
          checked + rs.length) := by
  intro rs
  induction rs with
  | nil => intro kast checked; simp [kastGo]
  | cons r rest ih =>
    intro kast checked
    rw [kastGo]
    cases hf : r.player_stats.find? (fun s => s.player_puuid == p) with
    | none =>
      simp only [hf]
      rw [ih]
      simp only [List.enumFrom_cons, List.countP_cons, List.length_cons, hf]
      refine Prod.ext ?_ ?_ <;> simp <;> omega
    | some st =>
      simp only [hf]
      rw [ih]
      simp only [List.enumFrom_cons, List.countP_cons, List.length_cons, hf]
      refine Prod.ext ?_ ?_ <;>
        by_cases hk : roundKast ks p st (kastRoundNum r checked) = true <;>
        simp [hk] <;> omega

/-- Claim C1 (amended): `calculate_kast` returns
`round(100 * kastRoundCount / max(roundsWithPlayerData, roundsPlayed), 1)`
with `roundsWithPlayerData` the number of entries of `match.rounds`
(skipped rounds included), and `0.0` whenever the rounds list is empty,
`total_rounds` is zero, or — departing from the claim's "for any player" —
the player id is the empty (falsy) string, on which the function
short-circuits to `0.0` unconditionally. -/
theorem calculate_kast_formula (m : MatchData) (p : String) (total_rounds : ℕ) :
    calculate_kast m p total_rounds =
      if p = "" ∨ total_rounds = 0 ∨ m.rounds = [] then 0
      else round1 (100 * (kastRoundCount m p : ℚ) /
        ((max m.rounds.length total_rounds : ℕ) : ℚ)) := by
  unfold calculate_kast
  by_cases hp : p = ""
  · simp [hp]
  by_cases h0 : total_rounds = 0
  · simp [h0, hp]
  by_cases hr : m.rounds = []
  · simp [h0, hp, hr]
  rw [if_neg (by simp [hp, h0]), if_neg (by simp [List.isEmpty_iff, hr]),
    if_neg (by simp [hp, h0, hr])]
  rw [kastGo_eq]
  unfold kastRoundCount
  rw [List.enum_eq_enumFrom]
  push_cast
  ring

/-- Counterexample to claim C1 as stated ("for any player"): for the empty
player id, `calculate_kast` short-circuits to `0.0` (line 86,
`if not player_puuid`), while the claimed formula evaluates to `100.0` on
a match whose single round carries a `player_stats` entry with an empty
`player_puuid` and a kill. -/
theorem calculate_kast_empty_puuid_counterexample :
    calculate_kast kastEmptyPuuidMatch "" 1 = 0 ∧
    kastRoundCount kastEmptyPuuidMatch "" = 1 ∧
    calculate_kast kastEmptyPuuidMatch "" 1 ≠
      round1 (100 * (kastRoundCount kastEmptyPuuidMatch "" : ℚ) /
        ((max kastEmptyPuuidMatch.rounds.length 1 : ℕ) : ℚ)) := by
  have h1 : calculate_kast kastEmptyPuuidMatch "" 1 = 0 := by
    simp [calculate_kast]
  have h2 : kastRoundCount kastEmptyPuuidMatch "" = 1 := by decide
  have h3 : kastEmptyPuuidMatch.rounds.length = 1 := by decide
  refine ⟨h1, h2, ?_⟩
  rw [h1, h2, h3]
  norm_num [round1]

/-! ## Claim C2: trade detection -/

theorem findIdx_of_unique {α : Type*} (pred : α → Bool) :
    ∀ (S : List α) (d : α), S.countP pred = 1 → d ∈ S → pred d = true →
      ∃ i, S.findIdx? pred = some i ∧ S[i]? = some d := by
  intro S
  induction S with
  | nil => intro d _ hm _; simp at hm
  | cons x xs ih =>
    intro d hc hm hpd
    by_cases hx : pred x = true
    · have hc0 : xs.countP pred = 0 := by
        rw [List.countP_cons, if_pos hx] at hc; omega
      have hdx : d = x := by
        rcases List.mem_cons.mp hm with rfl | hdxs
        · rfl
        · exact absurd hpd (List.countP_eq_zero.mp hc0 d hdxs)
      refine ⟨0, ?_, by simp [hdx]⟩
      rw [List.findIdx?_cons, if_pos hx]
    · have hcx : xs.countP pred = 1 := by
        rw [List.countP_cons, if_neg hx] at hc; omega
      have hdxs : d ∈ xs := by
        rcases List.mem_cons.mp hm with rfl | hdxs
        · exact absurd hpd hx
        · exact hdxs
      obtain ⟨i, hfi, hgi⟩ := ih d hcx hdxs hpd
      refine ⟨i + 1, ?_, by simpa using hgi⟩
      rw [List.findIdx?_cons, if_neg hx, List.findIdx?_succ, hfi]
      rfl

theorem tradeScan_iff (S : List Kill) (i : ℕ) (kp : String) (t : ℤ) (p : String) :
    tradeScan S i kp t p = true ↔
      ∃ j, j < S.length ∧ j ≠ i ∧
        ∃ tk, S[j]? = some tk ∧ tradeCond tk kp t p = true := by
  unfold tradeScan
  rw [List.any_eq_true]
  constructor
  · rintro ⟨j, hj, hcond⟩
    rw [List.mem_range] at hj
    rw [Bool.and_eq_true] at hcond
    obtain ⟨hne, hm⟩ := hcond
    refine ⟨j, hj, by simpa using hne, ?_⟩
    cases hS : S[j]? with
    | none => rw [hS] at hm; exact absurd hm (by simp)
    | some tk => rw [hS] at hm; exact ⟨tk, rfl, hm⟩
  · rintro ⟨j, hj, hne, tk, hS, hc⟩
    refine ⟨j, List.mem_range.mpr hj, ?_⟩
    rw [Bool.and_eq_true]
    exact ⟨by simpa using hne, by rw [hS]; exact hc⟩

/-- Claim C2: in a round's kill list in which the player dies (exactly one
death event, per the data-model invariant), trade detection succeeds
precisely when some kill event of the list — other than the death itself,
before or after it in time — has the player's killer as victim, a killer
different from the player, and a timestamp within 5000 ms (inclusive) of
the death time. -/
theorem wasTraded_characterization (L : List Kill) (p : String) (d : Kill)
    (hdL : d ∈ L) (hdv : d.victim_puuid = p)
    (huniq : L.countP (fun k => k.victim_puuid == p) = 1) :
    (wasTraded L p = true ↔
      ∃ e ∈ L, e.victim_puuid = d.killer_puuid ∧ e.killer_puuid ≠ p ∧
        (e.kill_time_in_round - d.kill_time_in_round).natAbs ≤ 5000) := by
  have hperm : (sortKillsByTime L).Perm L := stableSort_perm _ L
  have hdS : d ∈ sortKillsByTime L := hperm.mem_iff.mpr hdL
  have hcS : (sortKillsByTime L).countP (fun k => k.victim_puuid == p) = 1 := by
    rw [hperm.countP_eq]; exact huniq
  have hpd : (fun k : Kill => k.victim_puuid == p) d = true := by simp [hdv]
  obtain ⟨i, hfi, hgi⟩ :=
    findIdx_of_unique (fun k : Kill => k.victim_puuid == p) (sortKillsByTime L) d hcS hdS hpd
  have hwt : wasTraded L p =
      tradeScan (sortKillsByTime L) i d.killer_puuid d.kill_time_in_round p := by
    simp only [wasTraded, hfi, hgi]
  rw [hwt, tradeScan_iff]
  constructor
  · rintro ⟨j, hjlen, hjne, tk, hjS, hcond⟩
    have htkS : tk ∈ sortKillsByTime L := by
      rcases List.getElem?_eq_some.mp hjS with ⟨hl, rfl⟩
      exact List.getElem_mem hl
    simp only [tradeCond, Bool.and_eq_true, beq_iff_eq, bne_iff_ne, ne_eq,
      decide_eq_true_eq] at hcond
    exact ⟨tk, hperm.mem_iff.mp htkS, hcond.1.1, hcond.2, hcond.1.2⟩
  · rintro ⟨e, heL, hev, hek, het⟩
    have heS : e ∈ sortKillsByTime L := hperm.mem_iff.mpr heL
    obtain ⟨j, hj⟩ := List.getElem?_of_mem heS
    have hjlen : j < (sortKillsByTime L).length := by
      rcases List.getElem?_eq_some.mp hj with ⟨hl, -⟩; exact hl
    by_cases hji : j = i
    · exfalso
      subst hji
      rw [hj] at hgi
      have hed : e = d := Option.some.inj hgi
      subst hed
      rw [hdv] at hev
      exact hek hev.symm
    · refine ⟨j, hjlen, hji, e, hj, ?_⟩
      simp only [tradeCond, Bool.and_eq_true, beq_iff_eq, bne_iff_ne, ne_eq,
        decide_eq_true_eq]
      exact ⟨⟨hev, het⟩, hek⟩

/-- Witness for `wasTraded_characterization`: `"P"` dies at 10000 ms to
`"K"`, who is traded by `"T"` at 15000 ms — exactly 5000 ms later. -/
theorem wasTraded_characterization_witness :
    wasTraded [tradeDeathKill, tradeRevengeKill] "P" = true ↔
      ∃ e ∈ [tradeDeathKill, tradeRevengeKill],
        e.victim_puuid = tradeDeathKill.killer_puuid ∧ e.killer_puuid ≠ "P" ∧
          (e.kill_time_in_round - tradeDeathKill.kill_time_in_round).natAbs ≤ 5000 :=
  wasTraded_characterization [tradeDeathKill, tradeRevengeKill] "P" tradeDeathKill
    (by decide) rfl (by decide)

/-! ## Claim C7: effective-loadout ranking -/

/-- Claim C7 (amended): whenever at least one signature reaches 5 observed
rounds, the loadout analysis returns only signatures with at least 5
rounds, ordered descending by the ranking key
`win_rate / max(total_value, 1) * 100` (proportional to
`winRate / totalValue` whenever `totalValue ≥ 1`), with at most 10
entries; when no signature reaches 5 rounds the function instead falls
through and returns the full unfiltered table. -/
theorem effective_loadouts_top (ms : List MatchData)
    (h : (applyLoadoutWinRates (buildLoadoutStats ms)).filter
      (fun e => decide (e.2.total_rounds ≥ 5)) ≠ []) :
    (∀ e ∈ analyze_effective_loadouts ms, 5 ≤ e.2.total_rounds) ∧
    (analyze_effective_loadouts ms).Pairwise
      (fun a b => loadoutKey b.2 ≤ loadoutKey a.2) ∧
    (analyze_effective_loadouts ms).length ≤ 10 := by
  have hres : analyze_effective_loadouts ms =
      (stableSort (fun a b => decide (loadoutKey b.2 ≤ loadoutKey a.2))
        ((applyLoadoutWinRates (buildLoadoutStats ms)).filter
          (fun e => decide (e.2.total_rounds ≥ 5)))).take 10 := by
    simp only [analyze_effective_loadouts]
    rw [if_neg (by simpa [List.isEmpty_iff] using h)]
  have htot : ∀ a b : String × LoadoutStats,
      decide (loadoutKey b.2 ≤ loadoutKey a.2) = true ∨
        decide (loadoutKey a.2 ≤ loadoutKey b.2) = true := by
    intro a b
    rcases le_total (loadoutKey b.2) (loadoutKey a.2) with hle | hle
    · left; simpa using hle
    · right; simpa using hle
  have htrans : ∀ a b c : String × LoadoutStats,
      decide (loadoutKey b.2 ≤ loadoutKey a.2) = true →
        decide (loadoutKey c.2 ≤ loadoutKey b.2) = true →
          decide (loadoutKey c.2 ≤ loadoutKey a.2) = true := by
    intro a b c hab hbc
    simp only [decide_eq_true_eq] at *
    exact le_trans hbc hab
  refine ⟨?_, ?_, ?_⟩
  · intro e he
    rw [hres] at he
    have he2 := List.mem_of_mem_take he
    have he3 := (stableSort_perm _ _).mem_iff.mp he2
    simpa using (List.mem_filter.mp he3).2
  · rw [hres]
    have hp := stableSort_pairwise htot htrans
      ((applyLoadoutWinRates (buildLoadoutStats ms)).filter
        (fun e => decide (e.2.total_rounds ≥ 5)))
    have hp' := hp.imp (fun hab => decide_eq_true_eq.mp hab)
    exact hp'.sublist (List.take_sublist 10 _)
  · rw [hres]
    exact List.length_take_le 10 _

/-- Witness for `effective_loadouts_top`: five identical full-team rounds
produce one signature with 5 observed rounds. -/
theorem effective_loadouts_top_witness :
    (∀ e ∈ analyze_effective_loadouts [loadoutMatch5], 5 ≤ e.2.total_rounds) ∧
    (analyze_effective_loadouts [loadoutMatch5]).Pairwise
      (fun a b => loadoutKey b.2 ≤ loadoutKey a.2) ∧
    (analyze_effective_loadouts [loadoutMatch5]).length ≤ 10 :=
  effective_loadouts_top [loadoutMatch5] (by decide)

/-- Counterexample to claim C7 as stated: with a single qualifying round,
no signature reaches 5 rounds and the function returns the full table —
a nonempty result all of whose entries have fewer than 5 observed
rounds. -/
theorem effective_loadouts_counterexample :
    analyze_effective_loadouts [loadoutMatch1] ≠ [] ∧
    (analyze_effective_loadouts [loadoutMatch1]).all
      (fun e => decide (5 ≤ e.2.total_rounds)) = false := by
  exact ⟨by decide, by decide⟩

end ValoBot
